import Mathlib

/-!
Verification of the ScholarSphere summary service text pipeline.

The definitions below are a shallow embedding of the Python sources:
  - `src/Summary-service/app/core.py` (sanitize_text, trim_to_last_sentence,
    normalize_text, get_text_hash, is_duplicate, deduplicate_content,
    rule_based_summary, generate_paper_summary, the paper-selection slice of
    generate_author_summary)
  - `src/Scholar-sphere/Summary-service/app/core.py` (the variant
    generate_paper_summary, modelled in namespace `ScholarSphere`)
  - `src/Summary-service/app/neo4j_repository.py` (is_stale,
    get_paper_cache_from_neo4j)

Modelling conventions:
  - Python strings are Lean `String`s; most character-level work happens on
    `.data : List Char`.
  - Python whitespace (the ASCII part of `\s` / `str.strip()` / `str.split()`)
    is the six ASCII whitespace characters.
  - The md5 fingerprint `get_text_hash` is modelled as an injective
    fingerprint, i.e. the normalized text itself: the code only ever compares
    fingerprints for equality, and md5 is collision-free on the texts at hand.
  - Python float arithmetic on the Jaccard ratio is modelled as exact `ℚ`
    arithmetic (the ratios of small integer cardinalities involved round
    identically).
  - External collaborators (the LLM, the Neo4j store, the wall clock) are
    explicit parameters: the LLM is a function `String → Option String`
    (`none` = failure/exception/empty credential path), the store is a
    function from keys to optional stored records, `now` is an argument.
-/

/-- ASCII whitespace, as matched by Python `\s`, `str.strip()`, `str.split()`
on the ASCII texts this service handles. -/
def isWs (c : Char) : Bool :=
  c = ' ' || c = '\t' || c = '\n' || c = '\r' || c = '\x0b' || c = '\x0c'

/-- Python `str.strip()` on a character list: drop whitespace from both ends. -/
def pystrip (l : List Char) : List Char :=
  ((l.dropWhile isWs).reverse.dropWhile isWs).reverse

/-- Python `str.strip()` on a `String`. -/
def pystripS (t : String) : String := ⟨pystrip t.data⟩

/-- One pass of `re.sub(r"\s+", " ", ·)`: collapse every whitespace run to a
single space.  `prev` records whether we are inside a whitespace run. -/
def collapseWs : List Char → Bool → List Char
  | [], _ => []
  | c :: cs, prev =>
    if isWs c then
      if prev then collapseWs cs true else ' ' :: collapseWs cs true
    else c :: collapseWs cs false

/-- `normalize_text` from `src/Summary-service/app/core.py`:
`re.sub(r'\s+', ' ', text.strip()).lower()` (empty input yields `""`). -/
def normalize_text (text : String) : String :=
  ⟨(collapseWs (pystrip text.data) false).map Char.toLower⟩

/-- `get_text_hash` from `src/Summary-service/app/core.py`:
`hashlib.md5(normalize_text(text).encode()).hexdigest()`.  The md5 digest is
used only for equality comparison; it is modelled as an injective fingerprint
of the normalized text, i.e. the normalized text itself. -/
def get_text_hash (text : String) : String := normalize_text text

/-- Python `str.split()` (split on whitespace runs, dropping empty tokens),
accumulator-style.  `acc` holds the current word, reversed. -/
def pysplitAux : List Char → List Char → List (List Char)
  | [], acc => if acc.isEmpty then [] else [acc.reverse]
  | c :: cs, acc =>
    if isWs c then
      if acc.isEmpty then pysplitAux cs [] else acc.reverse :: pysplitAux cs []
    else pysplitAux cs (c :: acc)

/-- Python `str.split()` on a character list. -/
def pysplit (l : List Char) : List (List Char) := pysplitAux l []

/-- The token-overlap check inside `is_duplicate`
(`src/Summary-service/app/core.py` lines 56-60): Jaccard similarity of the
whitespace-tokenized word sets, strictly above `threshold`; `False` when the
union is empty. -/
def jaccard_gt (norm1 norm2 : String) (threshold : ℚ) : Bool :=
  let w1 : Finset (List Char) := (pysplit norm1.data).toFinset
  let w2 : Finset (List Char) := (pysplit norm2.data).toFinset
  let common := w1 ∩ w2
  let total := w1 ∪ w2
  if total.card ≠ 0 then
    decide (((common.card : ℚ) / (total.card : ℚ)) > threshold)
  else false

/-- `is_duplicate` from `src/Summary-service/app/core.py` lines 50-61.
The branch structure (early `return`s) is preserved exactly. -/
def is_duplicate (text1 text2 : String) (threshold : ℚ) : Bool :=
  if text1 = "" ∨ text2 = "" then false
  else if get_text_hash text1 = get_text_hash text2 then true
  else if (normalize_text text1).length < 200 ∧ (normalize_text text2).length < 200 then
    decide (normalize_text text1 = normalize_text text2)
  else if (normalize_text text1).data <:+: (normalize_text text2).data ∨
      (normalize_text text2).data <:+: (normalize_text text1).data then true
  else if 100 < (normalize_text text1).length ∧ 100 < (normalize_text text2).length then
    jaccard_gt (normalize_text text1) (normalize_text text2) threshold
  else false

/-- The loop of `deduplicate_content` (`src/Summary-service/app/core.py`
lines 63-71); `acc` is the `unique_content` accumulator.  `is_duplicate` is
called with its default threshold `0.9`. -/
def dedupAux : List (String × String) → List (String × String) → List (String × String)
  | [], acc => acc
  | (content, source) :: rest, acc =>
    if pystripS content = "" then dedupAux rest acc
    else if acc.any (fun e => is_duplicate content e.1 (9 / 10)) then dedupAux rest acc
    else dedupAux rest (acc ++ [(content, source)])

/-- `deduplicate_content` from `src/Summary-service/app/core.py` lines 63-71.
(`not content or not content.strip()` is equivalent to
`content.strip() == ""`.) -/
def deduplicate_content (content_list : List (String × String)) : List (String × String) :=
  dedupAux content_list []

/-- Sentence-ending punctuation recognized by `trim_to_last_sentence`. -/
def isSentPunc (c : Char) : Bool := c = '.' || c = '?' || c = '!'

/-- `max(text.rfind('.'), text.rfind('?'), text.rfind('!'))` from
`trim_to_last_sentence`: the index of the last sentence-ending punctuation
character, or `none` when there is none (Python's `-1`). -/
def lastPuncIdx (l : List Char) : Option Nat :=
  match l.reverse.findIdx? (fun c => isSentPunc c) with
  | none => none
  | some j => some (l.length - 1 - j)

/-- `trim_to_last_sentence` from `src/Summary-service/app/core.py`
lines 36-41. -/
def trim_to_last_sentence (text : String) : String :=
  if text = "" then text
  else
    match lastPuncIdx text.data with
    | some i => ⟨pystrip (text.data.take (i + 1))⟩
    | none => pystripS text

/-- State machine for `re.sub(r"<[^>]+>", " ", ·)` in `sanitize_text`:
a tag is a `<`, then at least one non-`>` character, then the first following
`>`; each tag is replaced by one space.  The state is `none` outside a
candidate tag and `some buf` (content so far, reversed) after an unclosed
`<`; an unclosed `<` at end of input, and `<>` (empty content), stay
literal, exactly as the regex leaves them. -/
def stripTagsAux : List Char → Option (List Char) → List Char
  | [], none => []
  | [], some buf => '<' :: buf.reverse
  | c :: rest, none =>
    if c = '<' then stripTagsAux rest (some [])
    else c :: stripTagsAux rest none
  | c :: rest, some buf =>
    if c = '>' then
      if buf.isEmpty then '<' :: '>' :: stripTagsAux rest none
      else ' ' :: stripTagsAux rest none
    else stripTagsAux rest (some (c :: buf))

/-- Python `str.split('\n')` (as used implicitly by the `(?im)^...$` line
regexes in `sanitize_text`): break into lines at newline characters. -/
def splitLines : List Char → List (List Char)
  | [] => [[]]
  | c :: rest =>
    if c = '\n' then [] :: splitLines rest
    else
      match splitLines rest with
      | [] => [[c]]
      | h :: t => (c :: h) :: t

/-- `re.sub(r"(?im)^.*NEEDLE.*$", " ", ·)`: every line containing `needle`
case-insensitively is replaced by a single space. -/
def dropBoilerLines (needle : List Char) (l : List Char) : List Char :=
  List.intercalate ['\n']
    ((splitLines l).map fun ln =>
      if needle <:+: ln.map Char.toLower then [' '] else ln)

/-- `sanitize_text` from `src/Summary-service/app/core.py` lines 27-34:
strip angle-bracket tags, blank out copyright / all-rights-reserved lines,
collapse whitespace, trim.  (The final Python step is collapse-then-strip;
strip-then-collapse produces the identical string.) -/
def sanitize_text (text : String) : String :=
  let l1 := stripTagsAux text.data none
  let l2 := dropBoilerLines "copyright".data l1
  let l3 := dropBoilerLines "all rights reserved".data l2
  ⟨collapseWs (pystrip l3) false⟩

/-- The paper record, as the dict shaped by `process_paper_data` /
`enrich_paper_with_full_text`.  `full_content = none` models a dict without
the `full_content` key (`.get("full_content")` is `None`); string-valued
keys that are only ever read through falsy checks or `.get(k, "")` are plain
`String`s with `""` for absent. -/
structure Paper where
  id : String
  title : String
  publication_year : Option Int
  cited_by_count : Nat
  abstract : String
  full_content : Option String
  has_fulltext : Bool
deriving DecidableEq

/-- `p.get("publication_year", 0) or 0`: a missing or `None`/`0` year sorts
as `0`. -/
def yearKey (p : Paper) : Int := p.publication_year.getD 0

/-- The selection loops of `generate_author_summary`
(`src/Summary-service/app/core.py` lines 329-345): walk `l`, appending each
paper whose id is truthy and unseen, until `sel` reaches `limit`.  The
`seen_ids` set is modelled as the list of ids added so far. -/
def selectLoop (limit : Nat) : List Paper → List Paper → List String → List Paper × List String
  | [], sel, seen => (sel, seen)
  | p :: rest, sel, seen =>
    if limit ≤ sel.length then (sel, seen)
    else if p.id ≠ "" ∧ p.id ∉ seen then selectLoop limit rest (sel ++ [p]) (p.id :: seen)
    else selectLoop limit rest sel seen

/-- `sample_size = min(20, len(papers))` from `generate_author_summary`. -/
def sample_size (papers : List Paper) : Nat := min 20 papers.length

/-- `num_cited = min(max(5, int(sample_size * 0.6)), sample_size)`.
`int(sample_size * 0.6)` truncates the float product; for every
`sample_size ≤ 20` it equals `⌊3·sample_size/5⌋`, written `3 * s / 5`. -/
def num_cited (papers : List Paper) : Nat :=
  min (max 5 (3 * sample_size papers / 5)) (sample_size papers)

/-- `cited_sorted = sorted(papers, key=cited_by_count, reverse=True)`:
Python's sort is stable, modelled by `List.insertionSort` with the
reflected relation (descending by citation count, ties in input order). -/
def cited_sorted (papers : List Paper) : List Paper :=
  List.insertionSort (fun a b => b.cited_by_count ≤ a.cited_by_count) papers

/-- `recent_sorted = sorted(papers, key=publication_year or 0,
reverse=True)`: stable descending sort by year. -/
def recent_sorted (papers : List Paper) : List Paper :=
  List.insertionSort (fun a b => yearKey b ≤ yearKey a) papers

/-- The paper-selection slice of `generate_author_summary`
(`src/Summary-service/app/core.py` lines 317-345): the highly-cited loop
(limit `num_cited`) over `cited_sorted`, then the recency loop (limit
`sample_size`) over `recent_sorted`, sharing `selected_papers` and
`seen_ids`. -/
def generate_author_summary_selection (papers : List Paper) : List Paper :=
  (selectLoop (sample_size papers) (recent_sorted papers)
      (selectLoop (num_cited papers) (cited_sorted papers) [] []).1
      (selectLoop (num_cited papers) (cited_sorted papers) [] []).2).1

/-- Modelled from the spec (claim C4 wording, for comparison with the code):
"max(5, round(sample_size*0.6)) papers (capped at the sample size)".
`round(s * 0.6)` is rounding to the nearest integer, written
`(6 * s + 5) / 10` (no exact-half ties occur for `s ≤ 20`). -/
def claimed_num_cited (papers : List Paper) : Nat :=
  min (max 5 ((6 * sample_size papers + 5) / 10)) (sample_size papers)

/-- Modelled from the spec (claim C4 wording, for comparison with the
code): the sample is the first `claimed_num_cited` papers of the stable
citation-descending order followed by the most recent papers (stable
year-descending order) excluding those already selected, up to
`sample_size` in total. -/
def claimed_selection (papers : List Paper) : List Paper :=
  (cited_sorted papers).take (claimed_num_cited papers) ++
    ((recent_sorted papers).filter fun p =>
        p ∉ (cited_sorted papers).take (claimed_num_cited papers)).take
      (sample_size papers - claimed_num_cited papers)

/-- Word characters of Python `\w` (ASCII part), which define the `\b`
boundaries of the keyword regex. -/
def isWordChar (c : Char) : Bool := c.isAlpha || c.isDigit || c = '_'

/-- Maximal word-character runs of a text (`acc` is the current run,
reversed). -/
def wordRunsAux : List Char → List Char → List (List Char)
  | [], acc => if acc.isEmpty then [] else [acc.reverse]
  | c :: cs, acc =>
    if isWordChar c then wordRunsAux cs (c :: acc)
    else if acc.isEmpty then wordRunsAux cs [] else acc.reverse :: wordRunsAux cs []

/-- `re.findall(r"\b[a-zA-Z]{5,}\b", all_text.lower())`: the maximal
word-character runs of the lowercased text that consist purely of letters
and have length at least 5 (a run touching a digit or underscore has no
`\b` boundary there and is skipped whole). -/
def extractWords (l : List Char) : List String :=
  ((wordRunsAux (l.map Char.toLower) []).filter fun r =>
      r.all (fun c => c.isAlpha) && decide (5 ≤ r.length)).map
    fun r => (⟨r⟩ : String)

/-- The distinct elements of `l` in first-occurrence order: the iteration
order of a Python `Counter` built from `l`. -/
def firstUniques (l : List String) : List String :=
  l.foldl (fun acc w => if w ∈ acc then acc else acc ++ [w]) []

/-- `Counter(l).most_common(k)` (keys only): the distinct elements of `l`
sorted stably by multiplicity descending (ties keep first-insertion order,
as CPython guarantees), truncated to `k`. -/
def most_common (l : List String) (k : Nat) : List String :=
  (List.insertionSort (fun a b => l.count b ≤ l.count a) (firstUniques l)).take k

/-- The stopword list of `rule_based_summary`
(`src/Summary-service/app/core.py` line 271). -/
def STOPWORDS : List String :=
  ["based", "using", "paper", "approach", "method", "system", "research",
    "study", "results", "propose", "present", "provide", "model", "models"]

/-- `rule_based_summary` from `src/Summary-service/app/core.py`
lines 264-283. -/
def rule_based_summary (author_name : String) (papers : List Paper) : String :=
  if papers = [] then
    "No papers were available to generate a summary for " ++ author_name ++ "."
  else
    let all_text := String.intercalate " " (papers.map fun p => p.full_content.getD p.abstract)
    let words := extractWords all_text.data
    let filtered := words.filter fun w => !(STOPWORDS.contains w)
    let keywords := most_common filtered 10
    let total_citations := (papers.map Paper.cited_by_count).sum
    "A rule-based analysis of the work by " ++ author_name ++
      " indicates a focus on several key areas. Across " ++ toString papers.length ++
      " analyzed publications, which have collectively received " ++
      toString total_citations ++ " citations, prominent keywords include: " ++
      String.intercalate ", " keywords ++
      ". This suggests a strong concentration in these domains."

/-- The prompt of `generate_paper_summary`
(`src/Summary-service/app/core.py` lines 290-305); the literal indentation
of the Python triple-quoted string is not reproduced character-exactly. -/
def paperPrompt (title content : String) : String :=
  "You are an expert research summarizer. Read the content below and produce a detailed, clear summary of this research paper.\n" ++
    "Provide a multi-paragraph summary (approx. 250-600 words) with the following labeled sections when applicable:\n\n" ++
    "- Background: Context of the work.\n- Main Contribution: The novel idea(s).\n- Methodology: How they did it.\n" ++
    "- Results/Findings: Key results and numbers.\n- Implications/Impact: Why it matters.\n\n" ++
    "Paper Title: " ++ title ++ "\nContent:\n" ++ (⟨content.data.take 4000⟩ : String) ++
    "\n\nWrite the summary now, using the labeled sections above.\n"

/-- `paper.get("full_content") or paper.get("abstract")` (and, in the
`ScholarSphere` variant, `paper.get("full_content", "") or
paper.get("abstract", "")`): the merged content when present and non-empty,
else the raw abstract. -/
def contentOf (paper : Paper) : String :=
  if paper.full_content.getD "" ≠ "" then paper.full_content.getD "" else paper.abstract

/-- The non-LLM fallback of `generate_paper_summary`
(`src/Summary-service/app/core.py` line 310):
`trim_to_last_sentence(content[:600]) + "..." if len(content) > 600 else
content`. -/
def paperFallback (content : String) : String :=
  if 600 < content.length then trim_to_last_sentence ⟨content.data.take 600⟩ ++ "..."
  else content

/-- `generate_paper_summary` from `src/Summary-service/app/core.py`
lines 285-310.  The LLM collaborator (`generate_with_groq`) is the
parameter `llm`; it returns `none` for every failure path (missing key,
HTTP error, timeout) and never raises.  The second component of the result
records the prompts sent to the LLM (empty list = the LLM was never
invoked). -/
def generate_paper_summary (llm : String → Option String) (paper : Paper) :
    String × List String :=
  if contentOf paper = "" ∨ (contentOf paper).length < 100 then
    ("Not enough content available to generate a summary.", [])
  else
    match llm (paperPrompt paper.title (contentOf paper)) with
    | some summary =>
      if pystripS summary ≠ "" then
        (trim_to_last_sentence (sanitize_text summary), [paperPrompt paper.title (contentOf paper)])
      else (paperFallback (contentOf paper), [paperPrompt paper.title (contentOf paper)])
    | none => (paperFallback (contentOf paper), [paperPrompt paper.title (contentOf paper)])

namespace ScholarSphere

/-- The prompt of the variant `generate_paper_summary`
(`src/Scholar-sphere/Summary-service/app/core.py` lines 736-745); literal
indentation not reproduced character-exactly. -/
def paperPrompt (title content : String) : String :=
  "Summarize the following research paper in 3-4 sentences, focusing on:\n" ++
    "1. Main contribution/novelty\n2. Methodology/approach\n3. Key results/findings\n\n" ++
    "Paper: " ++ title ++ "\n\nContent:\n" ++ (⟨content.data.take 2000⟩ : String) ++
    "\n\nProvide a concise summary:"

/-- The non-LLM return value of the variant:
`content[:600] + "..." if len(content) > 600 else content`. -/
def excerpt (content : String) : String :=
  if 600 < content.length then (⟨content.data.take 600⟩ : String) ++ "..." else content

/-- `generate_paper_summary` from
`src/Scholar-sphere/Summary-service/app/core.py` lines 727-757.  In this
variant `generate_with_groq` raises on failure and the call site catches
every exception; `llm` returning `none` is that exception path (including
`summary.strip()` on a `None` result).  The second component records the
prompts sent to the LLM. -/
def generate_paper_summary (llm : String → Option String) (paper : Paper) :
    String × List String :=
  if contentOf paper = "" ∨ (contentOf paper).length < 100 then
    ("No content available for summarization.", [])
  else if paper.has_fulltext ∧ 1000 < (contentOf paper).length then
    match llm (paperPrompt paper.title (contentOf paper)) with
    | some summary => (pystripS summary, [paperPrompt paper.title (contentOf paper)])
    | none => (excerpt (contentOf paper), [paperPrompt paper.title (contentOf paper)])
  else (excerpt (contentOf paper), [])

end ScholarSphere

/-- `STALE_MS` from `src/Summary-service/app/neo4j_repository.py`: 15 days
in milliseconds. -/
def STALE_MS : Int := 15 * 24 * 60 * 60 * 1000

/-- `is_stale` from `src/Summary-service/app/neo4j_repository.py`
lines 23-34.  `now` (`int(time.time() * 1000)` in the code) is an explicit
parameter.  Python `not last_updated_ts` is true for `None` and for `0`. -/
def is_stale (last_updated_ts : Option Int) (now : Int) (max_age_ms : Int) : Bool :=
  match last_updated_ts with
  | none => true
  | some t => if t = 0 then true else decide (now - t > max_age_ms)

/-- A `Work` node as read by the paper-cache query: the three properties the
query touches, each possibly null. -/
structure StoredPaper where
  summary : Option String
  infoJson : Option String
  lastUpdated : Option Int
deriving DecidableEq

/-- `get_paper_cache_from_neo4j` from
`src/Summary-service/app/neo4j_repository.py` lines 128-162.  The store is a
function from work ids to optional nodes; the Cypher `WHERE w.summary IS NOT
NULL AND w.infoJson IS NOT NULL` yields no record when either is null, the
Python code then re-checks both for falsiness (empty string), then applies
`is_stale` with the default 15-day window.  The payload (`json.loads` of the
stored JSON) is returned as the raw stored string, JSON decoding being an
opaque boundary. -/
def get_paper_cache_from_neo4j (store : String → Option StoredPaper) (now : Int)
    (paper_id : String) : Option (String × String) :=
  match store paper_id with
  | none => none
  | some w =>
    match w.summary, w.infoJson with
    | some s, some j =>
      if s = "" ∨ j = "" then none
      else if is_stale w.lastUpdated now STALE_MS then none
      else some (s, j)
    | some _, none => none
    | none, some _ => none
    | none, none => none

/-! ## Shared lemmas about `is_duplicate` -/

/-- The Jaccard check is symmetric in its two texts. -/
lemma jaccard_gt_comm (norm1 norm2 : String) (threshold : ℚ) :
    jaccard_gt norm1 norm2 threshold = jaccard_gt norm2 norm1 threshold := by
  simp only [jaccard_gt]
  rw [Finset.inter_comm, Finset.union_comm]

/-- Exact characterization of `is_duplicate`: the short-text branch returns
early, so containment and token overlap are only consulted when at least one
normalized text has length `≥ 200`. -/
lemma is_duplicate_eq_true_iff (text1 text2 : String) (threshold : ℚ) :
    is_duplicate text1 text2 threshold = true ↔
      (¬(text1 = "" ∨ text2 = "") ∧
        (normalize_text text1 = normalize_text text2 ∨
          (¬((normalize_text text1).length < 200 ∧ (normalize_text text2).length < 200) ∧
            ((normalize_text text1).data <:+: (normalize_text text2).data ∨
              (normalize_text text2).data <:+: (normalize_text text1).data ∨
              (100 < (normalize_text text1).length ∧ 100 < (normalize_text text2).length ∧
                jaccard_gt (normalize_text text1) (normalize_text text2) threshold = true))))) := by
  unfold is_duplicate get_text_hash
  split_ifs with h1 h2 h3 h4 h5
  · simp only [false_iff]
    rintro ⟨hne, _⟩
    exact hne h1
  · simp only [true_iff]
    exact ⟨h1, Or.inl h2⟩
  · simp only [decide_eq_true_eq]
    constructor
    · intro h
      exact absurd h h2
    · rintro ⟨_, heq | ⟨hns, _⟩⟩
      · exact absurd heq h2
      · exact absurd h3 hns
  · simp only [true_iff]
    refine ⟨h1, Or.inr ⟨h3, ?_⟩⟩
    rcases h4 with hi | hi
    · exact Or.inl hi
    · exact Or.inr (Or.inl hi)
  · constructor
    · intro hj
      exact ⟨h1, Or.inr ⟨h3, Or.inr (Or.inr ⟨h5.1, h5.2, hj⟩)⟩⟩
    · rintro ⟨_, heq | ⟨_, hi | hi | ⟨_, _, hj⟩⟩⟩
      · exact absurd heq h2
      · exact absurd (Or.inl hi) h4
      · exact absurd (Or.inr hi) h4
      · exact hj
  · simp only [false_iff]
    rintro ⟨_, heq | ⟨_, hi | hi | ⟨ha, hb, _⟩⟩⟩
    · exact h2 heq
    · exact h4 (Or.inl hi)
    · exact h4 (Or.inr hi)
    · exact h5 ⟨ha, hb⟩

/-- `is_duplicate` is symmetric. -/
lemma is_duplicate_comm (text1 text2 : String) (threshold : ℚ) :
    is_duplicate text1 text2 threshold = is_duplicate text2 text1 threshold := by
  have key : ∀ a b : String, is_duplicate a b threshold = true →
      is_duplicate b a threshold = true := by
    intro a b h
    rw [is_duplicate_eq_true_iff] at h ⊢
    obtain ⟨hne, h⟩ := h
    refine ⟨fun hc => hne hc.symm, ?_⟩
    rcases h with heq | ⟨hlen, hrest⟩
    · exact Or.inl heq.symm
    · refine Or.inr ⟨fun hc => hlen ⟨hc.2, hc.1⟩, ?_⟩
      rcases hrest with hi | hi | ⟨ha, hb, hj⟩
      · exact Or.inr (Or.inl hi)
      · exact Or.inl hi
      · exact Or.inr (Or.inr ⟨hb, ha, (jaccard_gt_comm _ _ _) ▸ hj⟩)
  cases hab : is_duplicate text1 text2 threshold with
  | false =>
    cases hba : is_duplicate text2 text1 threshold with
    | false => rfl
    | true => exact absurd (key _ _ hba) (by simp [hab])
  | true => exact (key _ _ hab).symm

/-! ## C1: the near-duplicate predicate versus the spec's "union" reading -/

/-- Modelled from the spec (§4.2 wording of claim C1, for comparison with
the code): "returns true iff (a) fingerprints match, or (b) both texts are
short (<200 chars) and normalized-equal, or (c) one normalized text is a
substring of the other, or (d) both are long (>100 chars) and the Jaccard
similarity of their whitespace-tokenized word sets exceeds the threshold";
the result is the plain union of the four conditions. -/
def claimed_near_duplicate (a b : String) (threshold : ℚ) : Prop :=
  get_text_hash a = get_text_hash b ∨
    (a.length < 200 ∧ b.length < 200 ∧ normalize_text a = normalize_text b) ∨
    ((normalize_text a).data <:+: (normalize_text b).data ∨
      (normalize_text b).data <:+: (normalize_text a).data) ∨
    (100 < a.length ∧ 100 < b.length ∧
      jaccard_gt (normalize_text a) (normalize_text b) threshold = true)

instance (a b : String) (threshold : ℚ) : Decidable (claimed_near_duplicate a b threshold) := by
  unfold claimed_near_duplicate
  infer_instance

/-- C1 fails as stated: for `"alpha"` and `"alpha beta"` the normalized
first text is a substring of the second (condition (c) of the union), yet
`is_duplicate` returns `false`, because the short-text branch returns the
normalized-equality verdict before containment is ever checked. -/
theorem c1_union_counterexample :
    ¬(is_duplicate "alpha" "alpha beta" (9 / 10) = true ↔
      claimed_near_duplicate "alpha" "alpha beta" (9 / 10)) := by
  decide

/-- C1 (amended): `is_near_duplicate(a, b, threshold)` returns true iff both
texts are non-empty and either (a) the fingerprints (normalized texts)
match, or — only when at least one normalized text has 200 or more
characters — (c) one normalized text is a substring of the other, or
(d) both normalized texts are longer than 100 characters and the Jaccard
similarity of their whitespace-tokenized word sets exceeds the threshold.
When both normalized texts are shorter than 200 characters the result is
fingerprint/normalized equality alone, so the checks are not an
order-independent union: the length-gated exact-match check returns early. -/
theorem c1_near_duplicate_characterization (text1 text2 : String) (threshold : ℚ) :
    is_duplicate text1 text2 threshold = true ↔
      (¬(text1 = "" ∨ text2 = "") ∧
        (normalize_text text1 = normalize_text text2 ∨
          (¬((normalize_text text1).length < 200 ∧ (normalize_text text2).length < 200) ∧
            ((normalize_text text1).data <:+: (normalize_text text2).data ∨
              (normalize_text text2).data <:+: (normalize_text text1).data ∨
              (100 < (normalize_text text1).length ∧ 100 < (normalize_text text2).length ∧
                jaccard_gt (normalize_text text1) (normalize_text text2) threshold = true))))) :=
  is_duplicate_eq_true_iff text1 text2 threshold

/-! ## C10: symmetry of the near-duplicate predicate -/

/-- C10: `is_near_duplicate` is symmetric: swapping the two texts never
changes the verdict, for every threshold. -/
theorem c10_near_duplicate_symmetric (a b : String) (threshold : ℚ) :
    is_duplicate a b threshold = is_duplicate b a threshold :=
  is_duplicate_comm a b threshold

/-! ## C9: `trim_to_last_sentence` on text already ending in punctuation -/

/-- C9 fails as stated: `" a."` ends in `'.'` but `trim_to_last_sentence`
returns `"a."`, because the result is passed through `str.strip()`. -/
theorem c9_trim_counterexample : trim_to_last_sentence " a." ≠ " a." := by decide

/-- C9 (amended): on every text that already ends in `'.'`, `'?'` or `'!'`,
`trim_to_last_sentence` returns the text stripped of surrounding whitespace
(Python `str.strip()`); since such a text has no trailing whitespace, it is
returned unchanged exactly when it has no leading whitespace. -/
theorem c9_trim_ends_with_punc (t : String) (l : List Char) (c : Char)
    (hdata : t.data = l ++ [c]) (hc : isSentPunc c = true) :
    trim_to_last_sentence t = pystripS t := by
  have hne : t ≠ "" := by
    intro h
    rw [h] at hdata
    simpa using hdata.symm
  unfold trim_to_last_sentence
  rw [if_neg hne]
  have hrev : t.data.reverse = c :: l.reverse := by rw [hdata]; simp
  have hfind : t.data.reverse.findIdx? (fun c => isSentPunc c) = some 0 := by
    rw [hrev, List.findIdx?_cons, hc]
    rfl
  have hlen : t.data.length = l.length + 1 := by rw [hdata]; simp
  have hidx : lastPuncIdx t.data = some l.length := by
    unfold lastPuncIdx
    rw [hfind, hlen]
    simp
  rw [hidx]
  show (⟨pystrip (t.data.take (l.length + 1))⟩ : String) = pystripS t
  have htake : t.data.take (l.length + 1) = t.data := by
    rw [hdata]
    exact List.take_of_length_le (by simp)
  rw [htake]
  rfl

/-- Witness for C9 (amended) at the concrete text `"ab."`. -/
theorem c9_trim_witness : trim_to_last_sentence "ab." = "ab." :=
  (c9_trim_ends_with_punc "ab." ['a', 'b'] '.' rfl (by decide)).trans (by decide)

/-! ## C2: scenario A of the deduplication engine -/

/-- The concrete fragment list of spec Scenario A. -/
def scenarioA : List (String × String) :=
  [("Deep learning is great.", "A"), ("deep learning is great", "B"),
    ("A totally different sentence.", "C")]

/-- C2 fails as stated: the dedup result of Scenario A does not have 2
entries labeled "A", "C". -/
theorem c2_scenarioA_counterexample :
    ¬((deduplicate_content scenarioA).length = 2 ∧
      (deduplicate_content scenarioA).map Prod.snd = ["A", "C"]) := by
  decide

/-- C2 (amended): on Scenario A the deduplication keeps all three fragments,
labeled "A", "B", "C": the trailing period makes the two short fragments
normalized-unequal, and the short-text branch of `is_duplicate` never
reaches the containment check. -/
theorem c2_scenarioA_keeps_all : deduplicate_content scenarioA = scenarioA := by decide

/-! ## C3: structural invariants of `deduplicate_content` -/

/-- Main induction for `deduplicate_content`: the loop only ever appends to
the accumulator, keeps a subsequence of its input, drops blanks, and keeps
nothing that duplicates the accumulator or an earlier survivor. -/
lemma dedupAux_spec (l : List (String × String)) :
    ∀ acc : List (String × String),
      ∃ r, dedupAux l acc = acc ++ r ∧ r.Sublist l ∧
        (∀ e ∈ r, pystripS e.1 ≠ "") ∧
        (∀ e ∈ r, ∀ a ∈ acc, is_duplicate e.1 a.1 (9 / 10) = false) ∧
        r.Pairwise (fun x y => is_duplicate y.1 x.1 (9 / 10) = false) := by
  induction l with
  | nil =>
    intro acc
    exact ⟨[], by simp [dedupAux], List.nil_sublist _, by simp, by simp, List.Pairwise.nil⟩
  | cons hd tl ih =>
    intro acc
    obtain ⟨content, source⟩ := hd
    by_cases hb : pystripS content = ""
    · obtain ⟨r, h1, h2, h3, h4, h5⟩ := ih acc
      refine ⟨r, ?_, h2.cons _, h3, h4, h5⟩
      simp only [dedupAux]
      rw [if_pos hb]
      exact h1
    · by_cases hdup : acc.any (fun e => is_duplicate content e.1 (9 / 10)) = true
      · obtain ⟨r, h1, h2, h3, h4, h5⟩ := ih acc
        refine ⟨r, ?_, h2.cons _, h3, h4, h5⟩
        simp only [dedupAux]
        rw [if_neg hb, if_pos hdup]
        exact h1
      · obtain ⟨r, h1, h2, h3, h4, h5⟩ := ih (acc ++ [(content, source)])
        refine ⟨(content, source) :: r, ?_, h2.cons₂ _, ?_, ?_, ?_⟩
        · simp only [dedupAux]
          rw [if_neg hb, if_neg hdup, h1, List.append_assoc]
          rfl
        · intro e he
          rcases List.mem_cons.mp he with rfl | he'
          · exact hb
          · exact h3 e he'
        · intro e he a ha
          rcases List.mem_cons.mp he with rfl | he'
          · refine Bool.eq_false_iff.mpr fun hcontra => hdup ?_
            exact List.any_eq_true.mpr ⟨a, ha, hcontra⟩
          · exact h4 e he' a (List.mem_append_left _ ha)
        · refine List.Pairwise.cons ?_ h5
          intro y hy
          exact h4 y hy (content, source)
            (List.mem_append_right _ (List.mem_singleton.mpr rfl))

/-- C3: `deduplicate` returns a subsequence of its input (hence never longer,
and surviving elements keep their relative input order), every survivor is
non-blank (empty and whitespace-only fragments are dropped unconditionally),
and no two distinct survivors are near-duplicates of each other in either
direction, with the predicate of §4.2 (`is_duplicate` at its default
threshold 0.9). -/
theorem c3_deduplicate_invariants (l : List (String × String)) :
    (deduplicate_content l).Sublist l ∧
      (deduplicate_content l).length ≤ l.length ∧
      (∀ e ∈ deduplicate_content l, pystripS e.1 ≠ "") ∧
      (deduplicate_content l).Pairwise
        (fun x y => is_duplicate x.1 y.1 (9 / 10) = false ∧
          is_duplicate y.1 x.1 (9 / 10) = false) := by
  obtain ⟨r, h1, h2, h3, _, h5⟩ := dedupAux_spec l []
  have hd : deduplicate_content l = r := by simpa [deduplicate_content] using h1
  rw [hd]
  refine ⟨h2, h2.length_le, h3, ?_⟩
  exact h5.imp fun h => ⟨(is_duplicate_comm _ _ _).trans h, h⟩

/-! ## C7: the insufficient-content sentinel -/

/-- C7: whenever the merged content (or the raw-abstract fallback) is empty
or shorter than the 100-character minimum, `generate_paper_summary` returns
the fixed insufficient-content sentinel and never consults the LLM (the
recorded prompt trace is empty).  An absent/empty content has length `0 <
100`, so the single length hypothesis covers both cases. -/
theorem c7_insufficient_content_sentinel (llm : String → Option String) (paper : Paper)
    (h : (contentOf paper).length < 100) :
    generate_paper_summary llm paper =
      ("Not enough content available to generate a summary.", []) := by
  unfold generate_paper_summary
  rw [if_pos (Or.inr h)]

/-- Witness for C7: a paper with no DOI-derived content and an empty
abstract (spec Scenario B) yields exactly the sentinel, for a concrete LLM
stub. -/
theorem c7_sentinel_witness :
    generate_paper_summary (fun _ => some "never used") ⟨"W0", "", none, 0, "", none, false⟩ =
      ("Not enough content available to generate a summary.", []) :=
  c7_insufficient_content_sentinel _ _ (by decide)

/-! ## C8: the rule-based author summary -/

/-- C8: the rule-based author summary is a non-empty string for every
non-empty paper list, and for an empty paper list it is the fixed
no-papers sentence (with the author name interpolated). -/
theorem c8_rule_based_summary_total (author_name : String) (papers : List Paper) :
    (papers ≠ [] → rule_based_summary author_name papers ≠ "") ∧
      rule_based_summary author_name [] =
        "No papers were available to generate a summary for " ++ author_name ++ "." := by
  constructor
  · intro hne heq
    unfold rule_based_summary at heq
    rw [if_neg hne] at heq
    have hlen := congrArg String.length heq
    simp only [String.length_append] at hlen
    have h1 : 0 < ("A rule-based analysis of the work by ").length := by decide
    have h0 : ("" : String).length = 0 := rfl
    omega
  · unfold rule_based_summary
    rw [if_pos rfl]

/-- Witness for C8 at a concrete author and one-paper list. -/
theorem c8_rule_based_witness :
    rule_based_summary "Ada" [⟨"W8", "T8", some 2020, 3, "Short abstract.", none, false⟩] ≠ "" ∧
      rule_based_summary "Ada" [] =
        "No papers were available to generate a summary for Ada." :=
  ⟨(c8_rule_based_summary_total "Ada" _).1 (List.cons_ne_nil _ _),
    (c8_rule_based_summary_total "Ada" []).2.trans (by decide)⟩

/-! ## C5: the cost-control path of the ScholarSphere paper summary -/

/-- C5 (amended): in `ScholarSphere.generate_paper_summary`, whenever the
available content has at least 100 characters but the substantive-mode
condition (`has_fulltext` and length > 1000) fails, the LLM is not invoked
and the *raw* (unsanitized) content is returned — verbatim when it has at
most 600 characters, otherwise truncated to its first 600 characters with
an ellipsis appended.  Moreover the LLM is invoked exactly when the content
passes the 100-character minimum and `has_fulltext ∧ length > 1000` holds. -/
theorem c5_below_threshold_skips_llm (llm : String → Option String) (paper : Paper) :
    (100 ≤ (contentOf paper).length →
      ¬(paper.has_fulltext = true ∧ 1000 < (contentOf paper).length) →
      ScholarSphere.generate_paper_summary llm paper =
        (ScholarSphere.excerpt (contentOf paper), [])) ∧
    ((ScholarSphere.generate_paper_summary llm paper).2 ≠ [] ↔
      (100 ≤ (contentOf paper).length ∧ paper.has_fulltext = true ∧
        1000 < (contentOf paper).length)) := by
  have h0 : ("" : String).length = 0 := rfl
  constructor
  · intro h100 hnot
    unfold ScholarSphere.generate_paper_summary
    have hguard : ¬(contentOf paper = "" ∨ (contentOf paper).length < 100) := by
      rintro (he | hl)
      · rw [he, h0] at h100
        omega
      · omega
    rw [if_neg hguard, if_neg hnot]
  · unfold ScholarSphere.generate_paper_summary
    by_cases hguard : contentOf paper = "" ∨ (contentOf paper).length < 100
    · rw [if_pos hguard]
      simp only [ne_eq, not_true_eq_false, false_iff, not_and]
      intro h100
      rcases hguard with he | hl
      · rw [he, h0] at h100
        omega
      · omega
    · rw [if_neg hguard]
      push_neg at hguard
      by_cases hsub : paper.has_fulltext = true ∧ 1000 < (contentOf paper).length
      · rw [if_pos hsub]
        cases llm (ScholarSphere.paperPrompt paper.title (contentOf paper)) with
        | none => simpa using ⟨by omega, hsub⟩
        | some s => simpa using ⟨by omega, hsub⟩
      · rw [if_neg hsub]
        simp only [ne_eq, not_true_eq_false, false_iff, not_and]
        intro _ hf hl
        exact hsub ⟨hf, hl⟩

/-- A short abstract that begins with a markup tag: `sanitize_text` strips
the tag, so the sanitized content differs from the raw content. -/
def taggedAbstract : String := ⟨'<' :: 'i' :: '>' :: List.replicate 150 'a'⟩

/-- The paper of the C5 counterexample: 153 characters of content (the
abstract), no full text. -/
def paperC5 : Paper := ⟨"W1", "T", none, 0, taggedAbstract, none, false⟩

set_option maxRecDepth 4000 in
/-- C5 fails as stated: for content above the 100-character minimum and
below the substantive threshold, the code does skip the LLM, but it returns
the *raw* content, not the sanitized content: here the raw abstract keeps
its `<i>` tag while its sanitized form drops it. -/
theorem c5_verbatim_counterexample :
    (ScholarSphere.generate_paper_summary (fun _ => none) paperC5).1 ≠
        sanitize_text (contentOf paperC5) ∧
      (ScholarSphere.generate_paper_summary (fun _ => none) paperC5).2 = [] := by
  decide

set_option maxRecDepth 4000 in
/-- Witness for C5 (amended) at a concrete 150-character abstract-only
paper: the LLM stub is never consulted and the content comes back
verbatim. -/
theorem c5_below_threshold_witness :
    ScholarSphere.generate_paper_summary (fun _ => some "ignored")
        ⟨"W2", "T", none, 0, ⟨List.replicate 150 'b'⟩, none, false⟩ =
      (⟨List.replicate 150 'b'⟩, []) := by
  have h := (c5_below_threshold_skips_llm (fun _ => some "ignored")
    ⟨"W2", "T", none, 0, ⟨List.replicate 150 'b'⟩, none, false⟩).1 (by decide) (by decide)
  exact h.trans (by decide)

/-! ## C6: the cache read gate -/

/-- For a realistic clock (`maxAge < now`), `is_stale` is false exactly when
a timestamp exists and is within the window.  (The Python falsy check treats
a literal `0` timestamp as missing; under `maxAge < now` that record is
stale either way.) -/
lemma is_stale_false_iff (ts : Option Int) (now maxAge : Int) (hnow : maxAge < now) :
    is_stale ts now maxAge = false ↔ ∃ t, ts = some t ∧ now - t ≤ maxAge := by
  cases ts with
  | none => simp [is_stale]
  | some t =>
    by_cases ht0 : t = 0
    · subst ht0
      constructor
      · intro h
        simp [is_stale] at h
      · rintro ⟨t', ht', hle⟩
        obtain rfl := Option.some.inj ht'
        exact absurd hle (by omega)
    · simp only [is_stale, if_neg ht0, decide_eq_false_iff_not, not_lt]
      constructor
      · intro h
        exact ⟨t, rfl, h⟩
      · rintro ⟨t', ht', h⟩
        obtain rfl := Option.some.inj ht'
        exact h

/-- C6: for a realistic clock (`now` past the 15-day window measured from
epoch, as every actual millisecond timestamp is), the paper-cache read
returns a record exactly when the store holds a node for the key whose
summary and payload are both present and non-empty and whose timestamp
exists and is at most 15 days old; in every other case it reports absent. -/
theorem c6_cache_read_gate (store : String → Option StoredPaper) (now : Int)
    (paper_id : String) (hnow : STALE_MS < now) (s j : String) :
    get_paper_cache_from_neo4j store now paper_id = some (s, j) ↔
      ∃ w, store paper_id = some w ∧ w.summary = some s ∧ w.infoJson = some j ∧
        s ≠ "" ∧ j ≠ "" ∧ ∃ t, w.lastUpdated = some t ∧ now - t ≤ STALE_MS := by
  unfold get_paper_cache_from_neo4j
  cases hst : store paper_id with
  | none => simp
  | some w =>
    cases hs : w.summary with
    | none => cases hj : w.infoJson <;> simp [hs, hj]
    | some s' =>
      cases hj : w.infoJson with
      | none => simp [hs, hj]
      | some j' =>
        simp only [hs, hj, Option.some.injEq]
        split_ifs with hempty hstale
        · constructor
          · intro h
            simp at h
          · rintro ⟨w', rfl, hs', hj', hsne, hjne, -⟩
            rw [hs] at hs'
            rw [hj] at hj'
            obtain rfl := Option.some.inj hs'
            obtain rfl := Option.some.inj hj'
            rcases hempty with he | he
            · exact hsne he
            · exact hjne he
        · constructor
          · intro h
            simp at h
          · rintro ⟨w', rfl, -, -, -, -, t, ht, hle⟩
            exact absurd ((is_stale_false_iff w.lastUpdated now STALE_MS hnow).mpr
              ⟨t, ht, hle⟩) (by simp [hstale])
        · constructor
          · intro h
            obtain ⟨h1, h2⟩ := Prod.mk.inj (Option.some.inj h)
            subst h1
            subst h2
            push_neg at hempty
            obtain ⟨t, ht, hle⟩ :=
              (is_stale_false_iff w.lastUpdated now STALE_MS hnow).mp (by simpa using hstale)
            exact ⟨w, rfl, hs, hj, hempty.1, hempty.2, t, ht, hle⟩
          · rintro ⟨w', rfl, hs', hj', -, -, -⟩
            rw [hs] at hs'
            rw [hj] at hj'
            obtain rfl := Option.some.inj hs'
            obtain rfl := Option.some.inj hj'
            rfl

/-- The concrete clock of the C6 witness (a realistic epoch-milliseconds
instant). -/
def nowW : Int := 1700000000000

/-- A store holding, for every key, a complete record written 20 days
before `nowW`. -/
def storeW : String → Option StoredPaper :=
  fun _ => some ⟨some "cached summary", some "cached payload",
    some (nowW - 20 * 24 * 60 * 60 * 1000)⟩

/-- Witness for C6 (spec Scenario E): a complete record whose timestamp is
20 days old with a 15-day max age is reported absent. -/
theorem c6_cache_read_witness :
    get_paper_cache_from_neo4j storeW nowW "W1" = none := by
  cases hg : get_paper_cache_from_neo4j storeW nowW "W1" with
  | none => rfl
  | some pr =>
    obtain ⟨s, j⟩ := pr
    have h := (c6_cache_read_gate storeW nowW "W1" (by decide) s j).mp hg
    obtain ⟨w, hw, -, -, -, -, t, ht, hle⟩ := h
    have hw2 : w = ⟨some "cached summary", some "cached payload",
        some (nowW - 20 * 24 * 60 * 60 * 1000)⟩ := by
      have h2 : some (⟨some "cached summary", some "cached payload",
          some (nowW - 20 * 24 * 60 * 60 * 1000)⟩ : StoredPaper) = some w := hw
      exact (Option.some.inj h2).symm
    subst hw2
    obtain rfl := Option.some.inj ht
    exact absurd hle (by decide)

/-! ## C4: the paper-selection policy of the author summary -/

/-- The selection loop over a list of fresh papers (truthy ids, none seen,
all ids distinct) simply takes the first `limit - sel.length` entries, and
records their ids (most recent first) in front of `seen`. -/
lemma selectLoop_fresh (l : List Paper) :
    ∀ (sel : List Paper) (seen : List String) (limit : Nat),
      (∀ p ∈ l, p.id ≠ "" ∧ p.id ∉ seen) → (l.map Paper.id).Nodup →
      selectLoop limit l sel seen =
        (sel ++ l.take (limit - sel.length),
          ((l.take (limit - sel.length)).map Paper.id).reverse ++ seen) := by
  induction l with
  | nil =>
    intro sel seen limit h hn
    simp [selectLoop]
  | cons p rest ih =>
    intro sel seen limit h hn
    simp only [List.map_cons, List.nodup_cons] at hn
    by_cases hlim : limit ≤ sel.length
    · have h0 : limit - sel.length = 0 := Nat.sub_eq_zero_of_le hlim
      simp [selectLoop, hlim, h0]
    · have hp := h p (List.mem_cons_self p rest)
      have h' : ∀ q ∈ rest, q.id ≠ "" ∧ q.id ∉ (p.id :: seen) := by
        intro q hq
        obtain ⟨hq1, hq2⟩ := h q (List.mem_cons_of_mem _ hq)
        refine ⟨hq1, fun hmem => ?_⟩
        rcases List.mem_cons.mp hmem with heq | hmem'
        · exact hn.1 (heq ▸ List.mem_map_of_mem Paper.id hq)
        · exact hq2 hmem'
      have hstep : selectLoop limit (p :: rest) sel seen =
          selectLoop limit rest (sel ++ [p]) (p.id :: seen) := by
        simp only [selectLoop]
        rw [if_neg hlim, if_pos hp]
      have hm : limit - sel.length = (limit - (sel ++ [p]).length) + 1 := by
        simp only [List.length_append, List.length_singleton]
        omega
      rw [hstep, ih (sel ++ [p]) (p.id :: seen) limit h' hn.2, hm, List.take_succ_cons]
      simp [List.append_assoc]

/-- The first component of the selection loop in general: it appends to
`sel` the first `limit - sel.length` papers of `l` whose id is not yet in
`seen` (assuming truthy, distinct ids in `l`). -/
lemma selectLoop_fst (l : List Paper) :
    ∀ (sel : List Paper) (seen : List String) (limit : Nat),
      (∀ p ∈ l, p.id ≠ "") → (l.map Paper.id).Nodup →
      (selectLoop limit l sel seen).1 =
        sel ++ ((l.filter fun p => p.id ∉ seen).take (limit - sel.length)) := by
  induction l with
  | nil =>
    intro sel seen limit h hn
    simp [selectLoop]
  | cons p rest ih =>
    intro sel seen limit h hn
    simp only [List.map_cons, List.nodup_cons] at hn
    have hrest : ∀ q ∈ rest, q.id ≠ "" := fun q hq => h q (List.mem_cons_of_mem _ hq)
    by_cases hlim : limit ≤ sel.length
    · have h0 : limit - sel.length = 0 := Nat.sub_eq_zero_of_le hlim
      simp [selectLoop, hlim, h0]
    · by_cases hseen : p.id ∈ seen
      · have hstep : selectLoop limit (p :: rest) sel seen = selectLoop limit rest sel seen := by
          simp only [selectLoop]
          rw [if_neg hlim, if_neg (by simp [hseen])]
        rw [hstep, ih sel seen limit hrest hn.2]
        congr 1
        rw [List.filter_cons, if_neg (by simp [hseen])]
      · have hstep : selectLoop limit (p :: rest) sel seen =
            selectLoop limit rest (sel ++ [p]) (p.id :: seen) := by
          simp only [selectLoop]
          rw [if_neg hlim, if_pos ⟨h p (List.mem_cons_self p rest), hseen⟩]
        have hcongr : (rest.filter fun q => q.id ∉ (p.id :: seen)) =
            (rest.filter fun q => q.id ∉ seen) := by
          apply List.filter_congr
          intro q hq
          have hne : q.id ≠ p.id := fun he => hn.1 (he ▸ List.mem_map_of_mem Paper.id hq)
          apply decide_eq_decide.mpr
          simp [List.mem_cons, hne]
        have hm : limit - sel.length = (limit - (sel ++ [p]).length) + 1 := by
          simp only [List.length_append, List.length_singleton]
          omega
        rw [hstep, ih (sel ++ [p]) (p.id :: seen) limit hrest hn.2, hcongr,
          List.filter_cons, if_pos (by simp [hseen]), hm, List.take_succ_cons]
        simp [List.append_assoc]

/-- Splitting a list by a boolean predicate preserves total length. -/
lemma length_filter_split (l : List Paper) (p : Paper → Bool) :
    (l.filter p).length + (l.filter fun a => !(p a)).length = l.length := by
  induction l with
  | nil => simp
  | cons a t ih =>
    cases hpa : p a <;> simp [List.filter_cons, hpa] <;> omega

/-- A duplicate-free list contained in another list is no longer than it. -/
lemma nodup_subset_length_le {l₁ l₂ : List Paper} (h₁ : l₁.Nodup) (hsub : l₁ ⊆ l₂) :
    l₁.length ≤ l₂.length := by
  calc l₁.length = l₁.toFinset.card := (List.toFinset_card_of_nodup h₁).symm
    _ ≤ l₂.toFinset.card := by
        apply Finset.card_le_card
        intro x hx
        rw [List.mem_toFinset] at hx ⊢
        exact hsub hx
    _ ≤ l₂.length := l₂.toFinset_card_le

/-- C4 (amended): for papers with truthy, pairwise-distinct ids, the
selection of `generate_author_summary` is exactly `num_cited =
min(max(5, ⌊sample_size·0.6⌋), sample_size)` papers in stable
citation-descending order followed by the most recent remaining papers in
stable year-descending order, up to `sample_size = min(20, n)` papers in
total; the selection always has exactly `sample_size` papers and contains
no paper twice.  (The claim's `round(sample_size*0.6)` must be the
truncation `int(sample_size*0.6) = ⌊3·sample_size/5⌋`; for 25 papers both
give 20 selected papers, 12 by citation rank and 8 by recency.) -/
theorem c4_selection_policy (papers : List Paper)
    (hid : ∀ p ∈ papers, p.id ≠ "") (hnodup : (papers.map Paper.id).Nodup) :
    generate_author_summary_selection papers =
      (cited_sorted papers).take (num_cited papers) ++
        ((recent_sorted papers).filter fun p =>
            p ∉ (cited_sorted papers).take (num_cited papers)).take
          (sample_size papers - num_cited papers) ∧
      (generate_author_summary_selection papers).length = sample_size papers ∧
      (generate_author_summary_selection papers).Nodup := by
  have hcperm : List.Perm (cited_sorted papers) papers := List.perm_insertionSort _ _
  have hrperm : List.Perm (recent_sorted papers) papers := List.perm_insertionSort _ _
  have hcids : ((cited_sorted papers).map Paper.id).Nodup :=
    ((hcperm.map Paper.id).nodup_iff).mpr hnodup
  have hrids : ((recent_sorted papers).map Paper.id).Nodup :=
    ((hrperm.map Paper.id).nodup_iff).mpr hnodup
  have hcid : ∀ p ∈ cited_sorted papers, p.id ≠ "" := fun p hp => hid p (hcperm.mem_iff.mp hp)
  have hrid : ∀ p ∈ recent_sorted papers, p.id ≠ "" := fun p hp => hid p (hrperm.mem_iff.mp hp)
  have hclen : (cited_sorted papers).length = papers.length := hcperm.length_eq
  have hrlen : (recent_sorted papers).length = papers.length := hrperm.length_eq
  have hk_le : num_cited papers ≤ sample_size papers := min_le_right _ _
  have hs_le : sample_size papers ≤ papers.length := min_le_right 20 _
  have hstep1 := selectLoop_fresh (cited_sorted papers) [] [] (num_cited papers)
    (fun p hp => ⟨hcid p hp, by simp⟩) hcids
  simp only [List.length_nil, Nat.sub_zero, List.nil_append, List.append_nil] at hstep1
  have h1a : (selectLoop (num_cited papers) (cited_sorted papers) [] []).1 =
      (cited_sorted papers).take (num_cited papers) := by rw [hstep1]
  have h1b : (selectLoop (num_cited papers) (cited_sorted papers) [] []).2 =
      (((cited_sorted papers).take (num_cited papers)).map Paper.id).reverse := by rw [hstep1]
  have hAlen : ((cited_sorted papers).take (num_cited papers)).length = num_cited papers := by
    rw [List.length_take, hclen]
    omega
  have hdef : generate_author_summary_selection papers =
      (selectLoop (sample_size papers) (recent_sorted papers)
        ((cited_sorted papers).take (num_cited papers))
        ((((cited_sorted papers).take (num_cited papers)).map Paper.id).reverse)).1 := by
    unfold generate_author_summary_selection
    rw [h1a, h1b]
  have hstep2 := selectLoop_fst (recent_sorted papers)
    ((cited_sorted papers).take (num_cited papers))
    ((((cited_sorted papers).take (num_cited papers)).map Paper.id).reverse)
    (sample_size papers) hrid hrids
  have hfilter : ((recent_sorted papers).filter fun q =>
        q.id ∉ ((((cited_sorted papers).take (num_cited papers)).map Paper.id).reverse)) =
      ((recent_sorted papers).filter fun q =>
        q ∉ (cited_sorted papers).take (num_cited papers)) := by
    apply List.filter_congr
    intro q hq
    apply decide_eq_decide.mpr
    rw [List.mem_reverse]
    constructor
    · intro hni hqa
      exact hni (List.mem_map_of_mem Paper.id hqa)
    · intro hni hqid
      obtain ⟨a, ha, haq⟩ := List.mem_map.mp hqid
      have haq' : a = q := by
        apply List.inj_on_of_nodup_map hnodup ?_ ?_ haq
        · exact hcperm.mem_iff.mp (List.take_subset _ _ ha)
        · exact hrperm.mem_iff.mp hq
      exact hni (haq' ▸ ha)
  have heqn : generate_author_summary_selection papers =
      (cited_sorted papers).take (num_cited papers) ++
        ((recent_sorted papers).filter fun p =>
            p ∉ (cited_sorted papers).take (num_cited papers)).take
          (sample_size papers - num_cited papers) := by
    rw [hdef, hstep2, hfilter, hAlen]
  have hrnodup : (recent_sorted papers).Nodup := hrids.of_map
  have hcnodup : (cited_sorted papers).Nodup := hcids.of_map
  have hAnodup : ((cited_sorted papers).take (num_cited papers)).Nodup :=
    (List.take_sublist _ _).nodup hcnodup
  -- counting: the recency list contains exactly `num_cited` papers of the
  -- citation prefix, so at least `sample_size - num_cited` papers remain.
  have hin_le : ((recent_sorted papers).filter fun q =>
      !(decide (q ∉ (cited_sorted papers).take (num_cited papers)))).length ≤
        num_cited papers := by
    have hsub : ((recent_sorted papers).filter fun q =>
        !(decide (q ∉ (cited_sorted papers).take (num_cited papers)))) ⊆
          (cited_sorted papers).take (num_cited papers) := by
      intro x hx
      have hx' := List.of_mem_filter hx
      simp only [Bool.not_eq_true', decide_eq_false_iff_not, not_not] at hx'
      exact hx'
    have hle := nodup_subset_length_le ((List.filter_sublist _).nodup hrnodup) hsub
    rwa [hAlen] at hle
  have hsplit := length_filter_split (recent_sorted papers)
    (fun q => decide (q ∉ (cited_sorted papers).take (num_cited papers)))
  have hflen : (sample_size papers - num_cited papers) ≤
      ((recent_sorted papers).filter fun q =>
        q ∉ (cited_sorted papers).take (num_cited papers)).length := by
    rw [hrlen] at hsplit
    omega
  refine ⟨heqn, ?_, ?_⟩
  · rw [heqn, List.length_append, hAlen, List.length_take]
    omega
  · rw [heqn]
    have hBnodup : (((recent_sorted papers).filter fun p =>
        p ∉ (cited_sorted papers).take (num_cited papers)).take
          (sample_size papers - num_cited papers)).Nodup :=
      (List.take_sublist _ _).nodup ((List.filter_sublist _).nodup hrnodup)
    refine hAnodup.append hBnodup ?_
    intro a haA haB
    have := List.of_mem_filter (List.take_subset _ _ haB)
    simp at this
    exact this haA

/-- The 13-paper input on which the code's `int` truncation and the claim's
`round` disagree: citation counts strictly decreasing in input order, the
last paper much more recent than the rest. -/
def papers13 : List Paper :=
  (List.range 13).map fun (i : Nat) =>
    ⟨toString (i + 1), "", some (if i = 12 then 3000 else 2000), 100 - i, "", none, false⟩

/-- C4 fails as stated: with 13 papers the code picks
`min(max(5, int(13*0.6)), 13) = 7` papers by citation rank, while the
claim's `max(5, round(13*0.6)) = 8` would pick 8; the eighth selected paper
differs (the most recent paper versus the eighth-most-cited one). -/
theorem c4_round_counterexample :
    generate_author_summary_selection papers13 ≠ claimed_selection papers13 := by
  decide

/-- The 25-paper input of spec Scenario D: distinct ids, strictly
decreasing citation counts, strictly increasing years. -/
def papers25 : List Paper :=
  (List.range 25).map fun (i : Nat) =>
    ⟨toString (i + 1), "", some (2000 + (i : Int)), 200 - i, "", none, false⟩

/-- Witness for C4 (amended) on spec Scenario D: for 25 papers the
selection has exactly `min(20, 25) = 20` papers, `num_cited = 12` of them
by citation rank, and no paper appears twice. -/
theorem c4_selection_witness :
    (generate_author_summary_selection papers25).length = 20 ∧
      num_cited papers25 = 12 ∧
      (generate_author_summary_selection papers25).Nodup := by
  have h := c4_selection_policy papers25 (by decide) (by decide)
  exact ⟨h.2.1.trans (by decide), by decide, h.2.2⟩
